import Mathlib

/-!
Shallow embedding of `src/inchPrice.ts` from the poly-flashloan-bot
repository: the arbitrage evaluation engine (`checkArbitrage`), the route
extraction pass (`getProtocols`, `getMaxPart`, `getRoutes`) and the URL
builder (`get1inchQuoteCallUrl`).

Modelling conventions:
* JavaScript `BigNumber` amounts (smallest-unit token amounts) are `Nat`.
* The decimal config values `loanAmount` and `diffAmount` (JS numbers such
  as `10` and `0.5`) are modelled by `Decimal`, an exact base-10 scaled
  value `mant / 10 ^ exp`; JS number addition on them is modelled as exact
  decimal addition, which agrees with JS for the magnitudes involved.
* The HTTP layer (`sendRequest`) is an oracle `String → QuoteResponse`
  passed in as a parameter; `checkArbitrage` additionally returns the list
  of request URLs it issued, in order, and the list of row updates it
  emitted, so that short-circuiting and log output are observable.
* Display-only fields of the row updates (`fromAmount`, `toAmount`,
  `difference`, `percentage`) and the three trailing strings of the
  success tuple are produced by floating-point formatting
  (`Number(...)`, `.toFixed`, chalk coloring); they are presentation-only
  and are not modelled. The `log` and color of every row update are.
* Values imported from modules not present in the source tree
  (`./config`, `./utils`, `./constrants/addresses`) are passed as explicit
  parameters (`Config`, the native/wrapped address pair); the missing
  function `replaceTokenAddress` is modelled from the spec (see its
  doc comment).
-/

/-- Token metadata as used by `checkArbitrage` (`IToken` in
`constrants/addresses`): symbol, on-chain address, decimal precision. -/
structure IToken where
  symbol : String
  address : String
  decimals : Nat
deriving DecidableEq

/-- One protocol split (`IProtocol` in `interfaces/inch`): a named
liquidity source taking a `part` share of the hop's volume and routing
into `toTokenAddress`.  `part` is a JS number; it is modelled as `Int` so
that non-positive parts (relevant to `getMaxPart`, whose running maximum
starts at `0`) are representable. -/
structure IProtocol where
  name : String
  part : Int
  fromTokenAddress : String
  toTokenAddress : String
deriving DecidableEq

/-- One step of a flattened route (`IRoute` in `interfaces/main`). -/
structure IRoute where
  name : String
  toTokenAddress : String
deriving DecidableEq

/-- Error payload body carried by a failed quote response
(`e.response.data`). -/
structure AxiosErrorData where
  error : String
deriving DecidableEq

/-- The `response` part of an axios error: HTTP status, status text and
the JSON error body. -/
structure AxiosErrorResponse where
  status : Nat
  statusText : String
  data : AxiosErrorData
deriving DecidableEq

/-- A failed quote result (`resultData.isAxiosError` truthy); `response`
is absent for pure transport errors. -/
structure AxiosError where
  response : Option AxiosErrorResponse
deriving DecidableEq

/-- A successful quote result: token metadata echoes, the input and output
amounts in smallest units, and the nested protocol-split tree
(`IProtocol[][][]`: alternative routes / hops / parallel splits). -/
structure QuoteSuccess where
  fromToken : IToken
  toToken : IToken
  fromTokenAmount : Nat
  toTokenAmount : Nat
  protocols : List (List (List IProtocol))
deriving DecidableEq

/-- Result of `sendRequest`: either a parsed quote or an axios error
(the source discriminates on `!!resultData.isAxiosError`). -/
inductive QuoteResponse where
  | success (data : QuoteSuccess)
  | failure (e : AxiosError)
deriving DecidableEq

/-- Color hint given to `updateRow`.  `boolVal` models the
`isProfitable ?? "green"` expression on the success path: `isProfitable`
is a boolean and never nullish, so `??` yields the boolean itself. -/
inductive RowColor where
  | white
  | red
  | boolVal (b : Bool)
deriving DecidableEq

/-- One `updateRow` call, restricted to its modelled fields: the `log`
string and the optional color hint. -/
structure RowUpdate where
  log : String
  color : Option RowColor
deriving DecidableEq

/-- An exact decimal number `mant / 10 ^ exp`, modelling the JS number
config values (`loanAmount`, `diffAmount`). -/
structure Decimal where
  mant : Nat
  exp : Nat
deriving DecidableEq

/-- Exact decimal addition (align exponents, add mantissas), modelling
`loanAmount + diffAmount` on line 81 of the source. -/
def Decimal.add (a b : Decimal) : Decimal :=
  let e := max a.exp b.exp
  ⟨a.mant * 10 ^ (e - a.exp) + b.mant * 10 ^ (e - b.exp), e⟩

/-- Model of `ethers.utils.parseUnits(value.toString(), decimals)`: the
smallest-unit integer `value * 10 ^ decimals`.  The source only calls it
with `value.exp ≤ decimals` (ethers throws otherwise). -/
def parseUnits (value : Decimal) (decimals : Nat) : Nat :=
  value.mant * 10 ^ (decimals - value.exp)

/-- Module-level configuration imported from `./config` (not in the
source tree): chain id, protocol allow-list string, loan amount and
profit margin (`diffAmount`). -/
structure Config where
  chainId : Nat
  protocols : String
  loanAmount : Decimal
  diffAmount : Decimal
deriving DecidableEq

/-- Translation of `get1inchQuoteCallUrl` (source lines 20-41); the
module-level `protocols` config string is passed explicitly. -/
def get1inchQuoteCallUrl (chainId : Nat) (protocolsCfg : String)
    (fromTokenAddress toTokenAddress : String) (amount : Nat) : String :=
  "https://api.1inch.exchange/v4.0/" ++ toString chainId ++ "/quote?" ++
    "fromTokenAddress=" ++ fromTokenAddress ++
    "&toTokenAddress=" ++ toTokenAddress ++
    "&amount=" ++ toString amount ++
    "&mainRouteParts=50" ++
    "&protocols=" ++ protocolsCfg

/-- The local `amount` of `checkArbitrage` (source lines 76-79): the loan
amount in the fromToken's smallest units — the spec's `baseAmount`. -/
def amount (cfg : Config) (fromTokenDecimal : Nat) : Nat :=
  parseUnits cfg.loanAmount fromTokenDecimal

/-- The local `amountDiff` of `checkArbitrage` (source lines 80-83):
`loanAmount + diffAmount` in the fromToken's smallest units — the spec's
`thresholdAmount`. -/
def amountDiff (cfg : Config) (fromTokenDecimal : Nat) : Nat :=
  parseUnits (Decimal.add cfg.loanAmount cfg.diffAmount) fromTokenDecimal

/-- The `firstCallURL` of `checkArbitrage` (source lines 85-90). -/
def firstCallURL (cfg : Config) (fromToken toToken : IToken) : String :=
  get1inchQuoteCallUrl cfg.chainId cfg.protocols fromToken.address
    toToken.address (amount cfg fromToken.decimals)

/-- The `secondCallURL` of `checkArbitrage` (source lines 129-134):
tokens swapped, amount the raw `returnAmount` from leg 1. -/
def secondCallURL (cfg : Config) (fromToken toToken : IToken)
    (returnAmount : Nat) : String :=
  get1inchQuoteCallUrl cfg.chainId cfg.protocols toToken.address
    fromToken.address returnAmount

/-- The failure log string of `checkArbitrage` (source lines 109-117 and
158-166, identical in both legs): `"{status}: {statusText} ({error})"`
when the error carries a response, the empty string otherwise. -/
def errorLog (e : AxiosError) : String :=
  match e.response with
  | some r => toString r.status ++ ": " ++ r.statusText ++
      " (" ++ r.data.error ++ ")"
  | none => ""

/-- Result tuple of `checkArbitrage`, restricted to its modelled
components: the profitability flag and the two protocol-split structures
(`null` on failure).  The three trailing display strings of the success
tuple are floating-point formatted and not modelled. -/
structure CheckResult where
  isProfitable : Bool
  firstProtocols : Option (List (List (List IProtocol)))
  secondProtocols : Option (List (List (List IProtocol)))
deriving DecidableEq

/-- Translation of `checkArbitrage` (source lines 50-228).  `send` is the
`sendRequest` oracle.  Besides the result tuple, the model returns the
list of request URLs issued (in order) and the list of row updates
emitted (log and color only), so that short-circuiting and log output can
be stated. -/
def checkArbitrage (cfg : Config) (send : String → QuoteResponse)
    (fromToken toToken : IToken) :
    CheckResult × List String × List RowUpdate :=
  let row0 : RowUpdate := { log := "", color := some RowColor.white }
  let row1 : RowUpdate :=
    { log := "Getting quote for " ++ fromToken.symbol ++ " → " ++
        toToken.symbol ++ "…", color := none }
  match send (firstCallURL cfg fromToken toToken) with
  | QuoteResponse.failure e =>
      ({ isProfitable := false, firstProtocols := none,
         secondProtocols := none },
       [firstCallURL cfg fromToken toToken],
       [row0, row1, { log := errorLog e, color := some RowColor.red }])
  | QuoteResponse.success resultData1 =>
      let firstProtocols := resultData1.protocols
      let returnAmount := resultData1.toTokenAmount
      let row2 : RowUpdate :=
        { log := "Getting quote for " ++ toToken.symbol ++ " → " ++
            fromToken.symbol ++ "…", color := none }
      match send (secondCallURL cfg fromToken toToken returnAmount) with
      | QuoteResponse.failure e =>
          ({ isProfitable := false, firstProtocols := none,
             secondProtocols := none },
           [firstCallURL cfg fromToken toToken,
            secondCallURL cfg fromToken toToken returnAmount],
           [row0, row1, row2,
            { log := errorLog e, color := some RowColor.red }])
      | QuoteResponse.success resultData2 =>
          let secondProtocols := resultData2.protocols
          let isProfitable :=
            decide (amountDiff cfg fromToken.decimals <
              resultData2.toTokenAmount)
          ({ isProfitable := isProfitable,
             firstProtocols := some firstProtocols,
             secondProtocols := some secondProtocols },
           [firstCallURL cfg fromToken toToken,
            secondCallURL cfg fromToken toToken returnAmount],
           [row0, row1, row2,
            { log := "", color := some (RowColor.boolVal isProfitable) }])

/-- The `forEach` loop of `getMaxPart` (source lines 264-271): threads
the running maximum `maxPart` (initialised to `0` by the source), the
recorded index `key` and the current index; returns `(key, maxPart)`. -/
def getMaxPartLoop : List IProtocol → Int → Nat → Nat → Nat × Int
  | [], maxPart, key, _ => (key, maxPart)
  | p :: rest, maxPart, key, idx =>
      if maxPart < p.part then getMaxPartLoop rest p.part idx (idx + 1)
      else getMaxPartLoop rest maxPart key (idx + 1)

/-- Translation of `getMaxPart` (source lines 263-273): run the loop with
`maxPart = 0`, `key = 0` and return `onehop[key]` (`none` models the
JS `undefined` of an out-of-range index on an empty hop). -/
def getMaxPart (onehop : List IProtocol) : Option IProtocol :=
  onehop.get? (getMaxPartLoop onehop 0 0 0).1

/-- Translation of `getProtocols` (source lines 250-261): take the outer
index-0 route, and for each hop emit the dominant split's name and output
token.  `none` models the JS runtime error of iterating `protocols[0]`
when the outer list is empty, or of reading fields of `undefined` when a
hop is empty. -/
def getProtocols (protocols : List (List (List IProtocol))) :
    Option (List IRoute) :=
  match protocols.head? with
  | none => none
  | some mainRoute =>
      mainRoute.mapM fun onehop =>
        (getMaxPart onehop).map fun besthop =>
          { name := besthop.name, toTokenAddress := besthop.toTokenAddress }

/-- Modelled from the spec: `replaceTokenAddress` lives in `src/utils`,
which is not in the source tree.  Spec section 4.3: if the address equals
the configured native address it is rewritten to the configured wrapped
address; otherwise it passes through unchanged. -/
def replaceTokenAddress (address native wrapped : String) : String :=
  if address = native then wrapped else address

/-- Translation of `getRoutes` (source lines 275-285): extract the route,
then rewrite each step's `toTokenAddress` through `replaceTokenAddress`.
The fixed `ERC20Token.MATIC.address` / `ERC20Token.WMATIC.address`
constants come from `constrants/addresses` (not in the source tree) and
are passed as the `nativeAddress` / `wrappedAddress` parameters. -/
def getRoutes (nativeAddress wrappedAddress : String)
    (protocols : List (List (List IProtocol))) : Option (List IRoute) :=
  (getProtocols protocols).map fun routes =>
    routes.map fun route =>
      { route with
        toTokenAddress :=
          replaceTokenAddress route.toTokenAddress nativeAddress
            wrappedAddress }

/-- Running maximum of the `part` fields over a hop, from initial value
`c` — the value `getMaxPartLoop` threads through its `maxPart` state. -/
def runningMax (onehop : List IProtocol) (c : Int) : Int :=
  onehop.foldl (fun acc p => max acc p.part) c

/-- The maximum `part` recorded by `getMaxPart`'s loop, which starts its
running maximum at `0`. -/
def maxPartVal (onehop : List IProtocol) : Int :=
  runningMax onehop 0

/-! Concrete fixtures used by witnesses and counterexamples. -/

/-- A sample source token with 2 decimals. -/
def tokA : IToken := { symbol := "AAA", address := "A", decimals := 2 }

/-- A sample destination token. -/
def tokB : IToken := { symbol := "BBB", address := "B", decimals := 2 }

/-- A sample configuration: loan amount 10, margin 0.5. -/
def cfgX : Config :=
  { chainId := 137, protocols := "POLYGON_SUSHISWAP",
    loanAmount := ⟨10, 0⟩, diffAmount := ⟨5, 1⟩ }

/-- A dominant split (part 70) of the first hop. -/
def pX : IProtocol :=
  { name := "SUSHI", part := 70, fromTokenAddress := "A",
    toTokenAddress := "M" }

/-- A minority split (part 30) of the first hop. -/
def pY : IProtocol :=
  { name := "QUICK", part := 30, fromTokenAddress := "A",
    toTokenAddress := "M" }

/-- The single split of the second hop. -/
def pZ : IProtocol :=
  { name := "UNIV3", part := 100, fromTokenAddress := "M",
    toTokenAddress := "B" }

/-- A successful quote whose split tree has a two-split hop. -/
def quoteBack : QuoteSuccess :=
  { fromToken := tokB, toToken := tokA, fromTokenAmount := 990,
    toTokenAmount := 1100, protocols := [[[pX, pY], [pZ]]] }

/-- An oracle on which every request succeeds with `quoteBack`. -/
def sendBothGood : String → QuoteResponse :=
  fun _ => QuoteResponse.success quoteBack

/-- An HTTP 400 error with the "insufficient liquidity" detail. -/
def e400 : AxiosError :=
  { response :=
      some { status := 400,
             statusText := "Bad Request",
             data := { error := "insufficient liquidity" } } }

/-- An oracle on which every request fails with `e400`. -/
def sendAllFail : String → QuoteResponse :=
  fun _ => QuoteResponse.failure e400

/-- C1: when both quote legs succeed, the returned `isProfitable` flag is
true iff `amountDiff` (the spec's `thresholdAmount`, the smallest-unit
integer of `loanAmount + diffAmount`) is strictly less than leg 2's
result amount; the comparison is between arbitrary-precision integers
(`Nat` in this embedding, `BigNumber.lt` in the source), never between
floating-point conversions. -/
theorem c1_isProfitable_iff_threshold_lt (cfg : Config)
    (send : String → QuoteResponse) (fromToken toToken : IToken)
    (r1 r2 : QuoteSuccess)
    (h1 : send (firstCallURL cfg fromToken toToken) =
      QuoteResponse.success r1)
    (h2 : send (secondCallURL cfg fromToken toToken r1.toTokenAmount) =
      QuoteResponse.success r2) :
    (checkArbitrage cfg send fromToken toToken).1.isProfitable = true ↔
      amountDiff cfg fromToken.decimals < r2.toTokenAmount := by
  simp [checkArbitrage, h1, h2]

/-- Witness for C1: a concrete run in which the threshold 1050 is below
leg 2's result 1100, so the evaluation is profitable. -/
theorem c1_witness :
    amountDiff cfgX tokA.decimals < quoteBack.toTokenAmount ∧
    (checkArbitrage cfgX sendBothGood tokA tokB).1.isProfitable = true :=
  ⟨by decide,
   (c1_isProfitable_iff_threshold_lt cfgX sendBothGood tokA tokB
      quoteBack quoteBack rfl rfl).mpr (by decide)⟩

/-- C2: when the first quote request fails, `checkArbitrage` returns
`isProfitable = false` with both protocol components null, and only one
request (the first URL) has been issued: the evaluation short-circuits
and leg 2 is never attempted. -/
theorem c2_leg1_failure_short_circuits (cfg : Config)
    (send : String → QuoteResponse) (fromToken toToken : IToken)
    (e : AxiosError)
    (h : send (firstCallURL cfg fromToken toToken) =
      QuoteResponse.failure e) :
    (checkArbitrage cfg send fromToken toToken).1 =
      { isProfitable := false, firstProtocols := none,
        secondProtocols := none } ∧
    (checkArbitrage cfg send fromToken toToken).2.1 =
      [firstCallURL cfg fromToken toToken] := by
  simp [checkArbitrage, h]

/-- Witness for C2: a concrete run against an always-failing oracle. -/
theorem c2_witness :
    (checkArbitrage cfgX sendAllFail tokA tokB).1 =
      { isProfitable := false, firstProtocols := none,
        secondProtocols := none } ∧
    (checkArbitrage cfgX sendAllFail tokA tokB).2.1 =
      [firstCallURL cfgX tokA tokB] :=
  c2_leg1_failure_short_circuits cfgX sendAllFail tokA tokB e400 rfl

/-- C7: whenever leg 1 succeeds, the second issued request is exactly the
quote URL for `toToken → fromToken` whose amount parameter is leg 1's
result amount `r1.toTokenAmount`, passed through unconverted. -/
theorem c7_leg2_amount_is_leg1_result (cfg : Config)
    (send : String → QuoteResponse) (fromToken toToken : IToken)
    (r1 : QuoteSuccess)
    (h1 : send (firstCallURL cfg fromToken toToken) =
      QuoteResponse.success r1) :
    (checkArbitrage cfg send fromToken toToken).2.1.get? 1 =
      some (secondCallURL cfg fromToken toToken r1.toTokenAmount) := by
  simp only [checkArbitrage, h1]
  cases send (secondCallURL cfg fromToken toToken r1.toTokenAmount) <;> rfl

/-- Witness for C7: in a concrete two-success run the second request URL
carries leg 1's result amount 1100. -/
theorem c7_witness :
    (checkArbitrage cfgX sendBothGood tokA tokB).2.1.get? 1 =
      some (secondCallURL cfgX tokA tokB 1100) :=
  c7_leg2_amount_is_leg1_result cfgX sendBothGood tokA tokB quoteBack rfl

/-- C3 counterexample: in a concrete two-success run the returned first
component is the raw nested split tree `[[[pX, pY], [pZ]]]` — whose first
hop still contains two splits — and not the flattened route that route
extraction would produce from it (one step per hop); `checkArbitrage`
never applies `getProtocols`/`getRoutes` to what it returns. -/
theorem c3_counterexample :
    (checkArbitrage cfgX sendBothGood tokA tokB).1.firstProtocols =
      some [[[pX, pY], [pZ]]] ∧
    getProtocols [[[pX, pY], [pZ]]] =
      some [{ name := "SUSHI", toTokenAddress := "M" },
            { name := "UNIV3", toTokenAddress := "B" }] ∧
    ([[[pX, pY], [pZ]]] : List (List (List IProtocol))).head?.map
        (List.map List.length) = some [2, 1] := by
  decide

/-- C3 as amended: when both legs succeed, the route components of the
returned evaluation are the raw nested protocol-split structures of leg 1
and leg 2 (`resultData1.protocols`, `resultData2.protocols`); route
extraction is not applied to them. -/
theorem c3_amended_raw_protocols_returned (cfg : Config)
    (send : String → QuoteResponse) (fromToken toToken : IToken)
    (r1 r2 : QuoteSuccess)
    (h1 : send (firstCallURL cfg fromToken toToken) =
      QuoteResponse.success r1)
    (h2 : send (secondCallURL cfg fromToken toToken r1.toTokenAmount) =
      QuoteResponse.success r2) :
    (checkArbitrage cfg send fromToken toToken).1.firstProtocols =
      some r1.protocols ∧
    (checkArbitrage cfg send fromToken toToken).1.secondProtocols =
      some r2.protocols := by
  simp [checkArbitrage, h1, h2]

/-- Witness for the amended C3: the concrete two-success run returns the
raw split trees of both legs. -/
theorem c3_amended_witness :
    (checkArbitrage cfgX sendBothGood tokA tokB).1.firstProtocols =
      some quoteBack.protocols ∧
    (checkArbitrage cfgX sendBothGood tokA tokB).1.secondProtocols =
      some quoteBack.protocols :=
  c3_amended_raw_protocols_returned cfgX sendBothGood tokA tokB
    quoteBack quoteBack rfl rfl

/-- C5: route extraction depends only on the head of the outer
(alternative-routes) sequence: two split trees with equal index-0
elements extract to the same routes, with and without the normalization
pass, whatever the trees hold at other outer indices. -/
theorem c5_extraction_reads_only_outer_head
    (t1 t2 : List (List (List IProtocol))) (h : t1.head? = t2.head?) :
    getProtocols t1 = getProtocols t2 ∧
    ∀ nativeAddress wrappedAddress : String,
      getRoutes nativeAddress wrappedAddress t1 =
        getRoutes nativeAddress wrappedAddress t2 := by
  have hp : getProtocols t1 = getProtocols t2 := by
    unfold getProtocols
    rw [h]
  exact ⟨hp, fun n w => by unfold getRoutes; rw [hp]⟩

/-- Witness for C5: two trees sharing their primary route but holding
different data at outer index 1 extract to the same routes. -/
theorem c5_witness :
    ([[[pX, pY], [pZ]], [[pY]]] :
        List (List (List IProtocol))).head? =
      ([[[pX, pY], [pZ]], [[pZ], [pX]]] :
        List (List (List IProtocol))).head? ∧
    getProtocols [[[pX, pY], [pZ]], [[pY]]] =
      getProtocols [[[pX, pY], [pZ]], [[pZ], [pX]]] :=
  ⟨rfl, (c5_extraction_reads_only_outer_head
      [[[pX, pY], [pZ]], [[pY]]] [[[pX, pY], [pZ]], [[pZ], [pX]]] rfl).1⟩

/-- A configuration with an 18-decimal source token in mind: loan 10,
margin 0.5 (the spec's end-to-end scenario). -/
def cfg18 : Config :=
  { chainId := 137, protocols := "POLYGON_SUSHISWAP",
    loanAmount := ⟨10, 0⟩, diffAmount := ⟨5, 1⟩ }

/-- An 18-decimal source token. -/
def tokFrom18 : IToken := { symbol := "DAI", address := "D", decimals := 18 }

/-- The destination token of the 18-decimal scenario. -/
def tokTo18 : IToken := { symbol := "WETH", address := "W", decimals := 18 }

/-- A quote returning 10.7 × 10^18 smallest units. -/
def quote18 : QuoteSuccess :=
  { fromToken := tokFrom18, toToken := tokTo18,
    fromTokenAmount := 10 ^ 19, toTokenAmount := 107 * 10 ^ 17,
    protocols := [[[pZ]]] }

/-- An oracle on which every request succeeds with `quote18`. -/
def send18 : String → QuoteResponse :=
  fun _ => QuoteResponse.success quote18

/-- C6: base amount and profitability threshold are both computed in the
fromToken's smallest-unit precision: with 18 decimals, loan 10 and margin
0.5, `amount` (the spec's `baseAmount`) is 10^19 and `amountDiff` (the
spec's `thresholdAmount`) is 10.5 × 10^18 = 105 × 10^17; a run whose
leg 2 returns 10.7 × 10^18 is profitable against that threshold. -/
theorem c6_smallest_unit_scaling :
    amount cfg18 tokFrom18.decimals = 10 ^ 19 ∧
    amountDiff cfg18 tokFrom18.decimals = 105 * 10 ^ 17 ∧
    (checkArbitrage cfg18 send18 tokFrom18 tokTo18).1.isProfitable = true := by
  refine ⟨by decide, by decide, by decide⟩

/-- Normalization of a single route step as performed by `getRoutes`:
replacing through the native/wrapped table equals a conditional rewrite
of the step. -/
theorem replaceTokenAddress_step (n w : String) (r : IRoute) :
    ({ r with toTokenAddress := replaceTokenAddress r.toTokenAddress n w }
        : IRoute) =
      if r.toTokenAddress = n then { r with toTokenAddress := w } else r := by
  cases r with
  | mk name addr =>
    by_cases h : addr = n
    · simp [replaceTokenAddress, h]
    · simp [replaceTokenAddress, h]

/-- C9: the normalization pass of `getRoutes` rewrites exactly those
route steps whose `toTokenAddress` equals the configured native address
to the configured wrapped address, and leaves every other step
unchanged. -/
theorem c9_native_wrapped_normalization (nativeAddress wrappedAddress : String)
    (protocols : List (List (List IProtocol))) (routes : List IRoute)
    (h : getProtocols protocols = some routes) :
    getRoutes nativeAddress wrappedAddress protocols =
      some (routes.map fun route =>
        if route.toTokenAddress = nativeAddress then
          { route with toTokenAddress := wrappedAddress }
        else route) := by
  unfold getRoutes
  rw [h, Option.map_some']
  refine congrArg some ?_
  exact List.map_congr_left fun r _ =>
    replaceTokenAddress_step nativeAddress wrappedAddress r

/-- Witness for C9: extraction of `[[[pX], [pZ]]]` yields steps into "M"
and "B"; normalizing with native "M" / wrapped "WM" rewrites the first
step only. -/
theorem c9_witness :
    getRoutes "M" "WM" [[[pX], [pZ]]] =
      some [{ name := "SUSHI", toTokenAddress := "WM" },
            { name := "UNIV3", toTokenAddress := "B" }] := by
  have h := c9_native_wrapped_normalization "M" "WM" [[[pX], [pZ]]]
    [{ name := "SUSHI", toTokenAddress := "M" },
     { name := "UNIV3", toTokenAddress := "B" }] (by decide)
  exact h.trans (by decide)

/-- Unfolding lemma: the running maximum over a cons. -/
theorem runningMax_cons (p : IProtocol) (l : List IProtocol) (c : Int) :
    runningMax (p :: l) c = runningMax l (max c p.part) := rfl

/-- The initial value is a lower bound of the running maximum. -/
theorem le_runningMax (l : List IProtocol) (c : Int) : c ≤ runningMax l c := by
  induction l generalizing c with
  | nil => exact le_refl c
  | cons p l ih =>
      exact le_trans (le_max_left c p.part) (ih (max c p.part))

/-- Every part in the hop is a lower bound of the running maximum. -/
theorem part_le_runningMax (l : List IProtocol) (c : Int) :
    ∀ p ∈ l, p.part ≤ runningMax l c := by
  induction l generalizing c with
  | nil => intro p hp; cases hp
  | cons q l ih =>
      intro p hp
      rcases List.mem_cons.mp hp with hq | hl
      · subst hq
        exact le_trans (le_max_right c p.part) (le_runningMax l (max c p.part))
      · exact ih (max c q.part) p hl

/-- When every part is at most the initial value, the running maximum is
that initial value. -/
theorem runningMax_of_all_le (l : List IProtocol) (c : Int)
    (h : ∀ p ∈ l, p.part ≤ c) : runningMax l c = c := by
  induction l with
  | nil => rfl
  | cons q l ih =>
      rw [runningMax_cons, max_eq_left (h q (List.mem_cons_self q l))]
      exact ih fun p hp => h p (List.mem_cons_of_mem q hp)

/-- Conversely, when the running maximum collapses to the initial value,
every part is at most that value. -/
theorem all_le_of_runningMax_eq (l : List IProtocol) (c : Int)
    (h : runningMax l c = c) : ∀ p ∈ l, p.part ≤ c := by
  induction l generalizing c with
  | nil => intro p hp; cases hp
  | cons q l ih =>
      intro p hp
      rw [runningMax_cons] at h
      have hle : max c q.part ≤ c := by
        have h2 := le_runningMax l (max c q.part)
        rw [h] at h2
        exact h2
      have hmax : max c q.part = c := le_antisymm hle (le_max_left c q.part)
      rcases List.mem_cons.mp hp with hq | hl
      · subst hq
        exact le_trans (le_max_right c p.part) hle
      · rw [hmax] at h
        exact ih c h p hl

/-- When no part exceeds the running maximum seen so far, the loop of
`getMaxPart` keeps its recorded key and maximum unchanged. -/
theorem getMaxPartLoop_of_all_le (l : List IProtocol) (m : Int) (k i : Nat)
    (h : ∀ p ∈ l, p.part ≤ m) : getMaxPartLoop l m k i = (k, m) := by
  induction l generalizing i with
  | nil => rfl
  | cons p l ih =>
      have hnlt : ¬ m < p.part := not_lt.mpr (h p (List.mem_cons_self p l))
      rw [getMaxPartLoop, if_neg hnlt]
      exact ih (i + 1) fun q hq => h q (List.mem_cons_of_mem p hq)

/-- Key invariant of `getMaxPart`'s loop: as soon as some part strictly
exceeds the initial running maximum `m`, the recorded key is the offset
`i` plus the index of the first part equal to the overall maximum. -/
theorem getMaxPartLoop_findIdx (l : List IProtocol) :
    ∀ (m : Int) (k i : Nat), m < runningMax l m →
      (getMaxPartLoop l m k i).1 =
        i + l.findIdx (fun p => p.part == runningMax l m) := by
  induction l with
  | nil =>
      intro m k i h
      exact absurd h (lt_irrefl m)
  | cons p l ih =>
      intro m k i h
      by_cases hlt : m < p.part
      · have hm : runningMax (p :: l) m = runningMax l p.part := by
          rw [runningMax_cons, max_eq_right hlt.le]
        rcases lt_or_eq_of_le (le_runningMax l p.part) with hcase | hcase
        · have hrec := ih p.part i (i + 1) hcase
          have hne : (p.part == runningMax (p :: l) m) = false := by
            rw [hm]
            exact beq_eq_false_iff_ne.mpr (ne_of_lt hcase)
          rw [getMaxPartLoop, if_pos hlt, hrec, List.findIdx_cons, hne, hm]
          simp only [cond_false]
          omega
        · have hall : ∀ q ∈ l, q.part ≤ p.part :=
            all_le_of_runningMax_eq l p.part hcase.symm
          have hloop := getMaxPartLoop_of_all_le l p.part i (i + 1) hall
          have hbeq : (p.part == runningMax (p :: l) m) = true := by
            rw [hm, ← hcase]
            exact beq_self_eq_true p.part
          rw [getMaxPartLoop, if_pos hlt, hloop, List.findIdx_cons, hbeq]
          simp only [cond_true]
          omega
      · have hpm : max m p.part = m := max_eq_left (not_lt.mp hlt)
        have hm : runningMax (p :: l) m = runningMax l m := by
          rw [runningMax_cons, hpm]
        have hrec := ih m k (i + 1) (hm ▸ h)
        have hne : (p.part == runningMax (p :: l) m) = false := by
          rw [hm]
          exact beq_eq_false_iff_ne.mpr
            (ne_of_lt (lt_of_le_of_lt (not_lt.mp hlt) (hm ▸ h)))
        rw [getMaxPartLoop, if_neg hlt, hrec, List.findIdx_cons, hne, hm]
        simp only [cond_false]
        omega

/-- A protocol split with a strictly negative part. -/
def pNeg : IProtocol :=
  { name := "NEG", part := -1, fromTokenAddress := "A",
    toTokenAddress := "M" }

/-- A protocol split with part zero. -/
def pZero : IProtocol :=
  { name := "ZERO", part := 0, fromTokenAddress := "A",
    toTokenAddress := "M" }

/-- C4 counterexample: in the hop `[pNeg, pZero]` the strictly largest
part (0) sits at index 1, yet `getMaxPart` returns the index-0 split with
part -1 — its running maximum starts at 0, so no non-positive part ever
replaces the initial key.  The claim's universal selection rule fails on
hops whose parts are all non-positive. -/
theorem c4_counterexample :
    getMaxPart [pNeg, pZero] = some pNeg ∧
    pNeg.part < pZero.part ∧
    [pNeg, pZero].get? 1 = some pZero := by
  decide

/-- C4 as amended: for every hop containing at least one strictly
positive part, `getMaxPart` selects the split at the first index whose
part equals the hop's maximum part — so the strictly largest part wins
and, on ties, the first occurrence wins. -/
theorem c4_amended_first_max_selected (onehop : List IProtocol)
    (h : ∃ p ∈ onehop, 0 < p.part) :
    getMaxPart onehop =
      onehop.get?
        (onehop.findIdx fun p => p.part == maxPartVal onehop) := by
  obtain ⟨p, hp, hpos⟩ := h
  have hlt : (0 : Int) < runningMax onehop 0 :=
    lt_of_lt_of_le hpos (part_le_runningMax onehop 0 p hp)
  have hkey := getMaxPartLoop_findIdx onehop 0 0 0 hlt
  unfold getMaxPart maxPartVal
  rw [hkey, Nat.zero_add]

/-- A second part-70 split, distinct from `pX`, for the tie-break test. -/
def pX2 : IProtocol :=
  { name := "DFYN", part := 70, fromTokenAddress := "A",
    toTokenAddress := "M" }

/-- Witness for the amended C4: on the hop with parts `[30, 70, 70]` the
selected split is the one at index 1 (the first part-70 split), never the
one at index 2. -/
theorem c4_witness :
    (∃ p ∈ [pY, pX, pX2], 0 < p.part) ∧
    getMaxPart [pY, pX, pX2] =
      [pY, pX, pX2].get?
        ([pY, pX, pX2].findIdx fun p =>
          p.part == maxPartVal [pY, pX, pX2]) ∧
    getMaxPart [pY, pX, pX2] = some pX ∧
    ([pY, pX, pX2].findIdx fun p => p.part == maxPartVal [pY, pX, pX2]) = 1 :=
  ⟨by decide, c4_amended_first_max_selected [pY, pX, pX2] (by decide),
   by decide, by decide⟩

/-- C10: on a non-empty hop in which every part is non-positive,
`getMaxPart` returns the index-0 split — the running maximum starts at 0,
so a non-positive part can never become the recorded maximum and the
recorded key stays 0. -/
theorem c10_nonpositive_parts_select_index_zero (onehop : List IProtocol)
    (p0 : IProtocol) (h0 : onehop.head? = some p0)
    (h : ∀ p ∈ onehop, p.part ≤ 0) :
    getMaxPart onehop = some p0 := by
  unfold getMaxPart
  rw [getMaxPartLoop_of_all_le onehop 0 0 0 h]
  cases onehop with
  | nil => exact Option.noConfusion h0
  | cons q l =>
      rw [List.head?_cons] at h0
      rw [← Option.some.inj h0]
      rfl

/-- A split with part -5. -/
def pM5 : IProtocol :=
  { name := "NEGFIVE", part := -5, fromTokenAddress := "A",
    toTokenAddress := "M" }

/-- A split with part -1, strictly larger than -5. -/
def pM1 : IProtocol :=
  { name := "NEGONE", part := -1, fromTokenAddress := "A",
    toTokenAddress := "M" }

/-- Witness for C10: on the all-negative hop `[-5, -1]` the index-0
split (part -5) is returned even though the later split's part -1 is
strictly larger. -/
theorem c10_witness :
    [pM5, pM1].head? = some pM5 ∧
    (∀ p ∈ [pM5, pM1], p.part ≤ 0) ∧
    getMaxPart [pM5, pM1] = some pM5 ∧
    pM5.part < pM1.part :=
  ⟨rfl, by decide,
   c10_nonpositive_parts_select_index_zero [pM5, pM1] pM5 rfl (by decide),
   by decide⟩

/-- C8: whichever leg fails, the evaluation ends with `isProfitable =
false` and its final row update carries the log string
`"{status}: {statusText} ({error message})"` built from the error's
response detail when present, and the empty string when absent.  The
first conjunct covers a leg-2 failure (leg 1 succeeded), the second a
leg-1 failure. -/
theorem c8_failed_leg_log_format (cfg : Config)
    (send sendB : String → QuoteResponse) (fromToken toToken : IToken)
    (r1 : QuoteSuccess) (e eB : AxiosError) :
    (send (firstCallURL cfg fromToken toToken) = QuoteResponse.success r1 →
      send (secondCallURL cfg fromToken toToken r1.toTokenAmount) =
        QuoteResponse.failure e →
      (checkArbitrage cfg send fromToken toToken).1.isProfitable = false ∧
      ((checkArbitrage cfg send fromToken toToken).2.2.getLast?).map
          RowUpdate.log =
        some (match e.response with
          | some r => toString r.status ++ ": " ++ r.statusText ++
              " (" ++ r.data.error ++ ")"
          | none => "")) ∧
    (sendB (firstCallURL cfg fromToken toToken) =
        QuoteResponse.failure eB →
      (checkArbitrage cfg sendB fromToken toToken).1.isProfitable = false ∧
      ((checkArbitrage cfg sendB fromToken toToken).2.2.getLast?).map
          RowUpdate.log =
        some (match eB.response with
          | some r => toString r.status ++ ": " ++ r.statusText ++
              " (" ++ r.data.error ++ ")"
          | none => "")) := by
  constructor
  · intro h1 h2
    refine ⟨by simp [checkArbitrage, h1, h2], ?_⟩
    simp only [checkArbitrage, h1, h2]
    rfl
  · intro h1
    refine ⟨by simp [checkArbitrage, h1], ?_⟩
    simp only [checkArbitrage, h1]
    rfl

/-- An oracle whose leg 1 succeeds with `quoteBack` and whose leg 2
(the return quote for amount 1100) fails with the HTTP 400 error. -/
def sendLeg2Fail : String → QuoteResponse :=
  fun url =>
    if url = secondCallURL cfgX tokA tokB 1100 then QuoteResponse.failure e400
    else QuoteResponse.success quoteBack

/-- Witness for C8: the HTTP 400 / "insufficient liquidity" failure on
either leg yields the log `"400: Bad Request (insufficient liquidity)"`
together with `isProfitable = false`. -/
theorem c8_witness :
    (checkArbitrage cfgX sendLeg2Fail tokA tokB).1.isProfitable = false ∧
    ((checkArbitrage cfgX sendLeg2Fail tokA tokB).2.2.getLast?).map
        RowUpdate.log =
      some "400: Bad Request (insufficient liquidity)" ∧
    (checkArbitrage cfgX sendAllFail tokA tokB).1.isProfitable = false ∧
    ((checkArbitrage cfgX sendAllFail tokA tokB).2.2.getLast?).map
        RowUpdate.log =
      some "400: Bad Request (insufficient liquidity)" := by
  have h := c8_failed_leg_log_format cfgX sendLeg2Fail sendAllFail tokA tokB
    quoteBack e400 e400
  have h1 := h.1 (by decide) (by decide)
  have h2 := h.2 rfl
  exact ⟨h1.1, h1.2.trans (by decide), h2.1, h2.2.trans (by decide)⟩
